import Mathlib

/-!
Verification of the Threatfeed news aggregator (package `news-api`).

This file gives a shallow embedding of the ingestion-and-ranking pipeline of
`news-api`: the keyword scorer (`calculateRank`), the source classifier
(`getCategoryForSource`), the article store with insert-if-absent semantics
(`InsertArticle`, mirroring `INSERT OR IGNORE` with the `UNIQUE(url)`
constraint declared in `InitDB`), the threat aggregator
(`GetTodayThreatScore`), the query path (`GetArticlesFromDB`), the article
builder of `fetchAndCacheNews`, CSV restore (`LoadArticlesFromCSV`), and a
transition system for the concurrent run of `fetchAndCacheNews`
(fan-out fetch workers, one buffered channel, a single writer goroutine).

Machine integers of the source are modelled as `Int`/`Nat`; timestamps as
`Int` seconds; the SQL store as a `List` of articles (`INSERT OR IGNORE`
checks the unique URL key); library parsers (`time.Parse`, `strconv.Atoi`)
are parameters of the functions that call them.
-/

set_option maxHeartbeats 1000000

namespace Threatfeed

/-- Character-list prefix test: does `pre` occur at the start of `l`? -/
def listStarts : List Char → List Char → Bool
  | [], _ => true
  | _ :: _, [] => false
  | a :: as, b :: bs => a == b && listStarts as bs

/-- Does `sub` occur as a contiguous run anywhere in the list? -/
def listHasSub (sub : List Char) : List Char → Bool
  | [] => listStarts sub []
  | c :: rest => listStarts sub (c :: rest) || listHasSub sub rest

/-- Embedding of Go `strings.Contains(s, sub)`. -/
def strContains (s sub : String) : Bool :=
  listHasSub sub.toList s.toList

/-- Embedding of Go `strings.ToLower` (characterwise; the data handled by the
program is ASCII, where the two agree). -/
def strToLower (s : String) : String :=
  String.mk (s.toList.map Char.toLower)

/-- Modelled from the spec: the `models.NewsArticle` record of package
`news-api/models` (the package file is not in the sources; the fields are
fixed by every use in `main.go` and by spec section 3). `PublishedAt` is
a timestamp in seconds. -/
structure NewsArticle where
  Title : String
  Description : String
  ImageURL : String
  URL : String
  SourceURL : String
  PublishedAt : Int
  Rank : Int
  Category : String
  deriving Repr, DecidableEq

/-- The `"Cybersecurity"` keyword table of `calculateRank`. -/
def cybersecurityKeywords : List (String × Int) :=
  [("zero-day", 5), ("exploit in the wild", 5), ("active attack", 5), ("critical vulnerability", 5),
   ("alert", 5), ("warning", 5), ("patch now", 5), ("ransomware attack", 5), ("breach confirmed", 5),
   ("vulnerability", 3), ("exploit", 3), ("breach", 3), ("attack", 3), ("malware", 3),
   ("ransomware", 3), ("phishing", 3), ("threat", 3), ("advisory", 3),
   ("security", 1), ("cybersecurity", 1), ("data", 1), ("privacy", 1), ("risk", 1),
   ("compliance", 1), ("encryption", 1), ("patch", 1)]

/-- The `"Tech"` keyword table of `calculateRank`. -/
def techKeywords : List (String × Int) :=
  [("ai", 5), ("artificial intelligence", 5), ("quantum computing", 5), ("breakthrough", 5),
   ("major update", 5), ("new chip", 5), ("innovation", 5), ("future of tech", 5),
   ("startup", 3), ("funding", 3), ("acquisition", 3), ("cloud", 3), ("5g", 3),
   ("machine learning", 3), ("data science", 3), ("web3", 3), ("metaverse", 3), ("robotics", 3),
   ("review", 1), ("gadget", 1), ("app", 1), ("software", 1), ("hardware", 1),
   ("update", 1), ("guide", 1), ("tips", 1)]

/-- The default keyword table of `calculateRank` (any other category). -/
def generalKeywords : List (String × Int) :=
  [("news", 1), ("update", 1), ("report", 1)]

/-- The `switch article.Category` of `calculateRank`. -/
def keywordsForCategory (category : String) : List (String × Int) :=
  if category = "Cybersecurity" then cybersecurityKeywords
  else if category = "Tech" then techKeywords
  else generalKeywords

/-- Embedding of `calculateRank` (db package): lowercase the concatenated
title and description and add the weight of every keyword of the category's
table occurring as a substring. Go iterates the keyword map in unspecified
order; the sum is order-independent, here taken in the order of the tables
above. -/
def calculateRank (article : NewsArticle) : Int :=
  let content := strToLower (article.Title ++ " " ++ article.Description)
  let keywords := keywordsForCategory article.Category
  keywords.foldl (fun rank kw => if strContains content kw.1 then rank + kw.2 else rank) 0

/-- The configured feed list `RssSources` of `main.go`. -/
def RssSources : List String :=
  ["https://www.bleepingcomputer.com/feed/",
   "https://feeds.feedburner.com/TheHackersNews",
   "https://blogs.cisco.com/security/feed",
   "https://www.wired.com/feed/category/security/latest/rss",
   "https://www.securityweek.com/feed/",
   "https://news.sophos.com/en-us/feed/",
   "https://www.csoonline.com/feed/",
   "https://www.theverge.com/rss/index.xml",
   "https://techcrunch.com/feed/",
   "https://arstechnica.com/feed/",
   "http://www.engadget.com/rss-full.xml",
   "http://www.fastcodesign.com/rss.xml",
   "http://www.forbes.com/entrepreneurs/index.xml",
   "https://blog.pragmaticengineer.com/rss/",
   "https://browser.engineering/rss.xml",
   "https://githubengineering.com/atom.xml",
   "https://joshwcomeau.com/rss.xml",
   "https://jvns.ca/atom.xml",
   "https://overreacted.io/rss.xml",
   "https://signal.org/blog/rss.xml",
   "https://slack.engineering/feed",
   "https://stripe.com/blog/feed.rss",
   "https://www.defenseone.com/rss/all/",
   "https://thediplomat.com/category/asia-defense/feed/",
   "https://www.janes.com/osint-insights/defence-news/feed/",
   "https://www.militarytimes.com/arc/outboundfeeds/news-rss/",
   "https://www.defensenews.com/arc/outboundfeeds/home-rss/"]

/-- The `cybersecuritySources` table of `getCategoryForSource`. -/
def cybersecuritySources : List String :=
  ["https://www.bleepingcomputer.com/feed/",
   "https://feeds.feedburner.com/TheHackersNews",
   "https://blogs.cisco.com/security/feed",
   "https://www.wired.com/feed/category/security/latest/rss",
   "https://www.securityweek.com/feed/",
   "https://news.sophos.com/en-us/feed/",
   "https://www.csoonline.com/feed/"]

/-- The `techSources` table of `getCategoryForSource`, transcribed exactly,
including the `.com` spellings that differ from `RssSources`. -/
def techSources : List String :=
  ["https://www.theverge.com/rss/index.xml",
   "https://techcrunch.com/feed/",
   "https://arstechnica.com/feed/",
   "http://www.engadget.com/rss-full.xml",
   "http://www.fastcodesign.com/rss.com",
   "http://www.forbes.com/entrepreneurs/index.xml",
   "https://blog.pragmaticengineer.com/rss/",
   "https://browser.engineering/rss.xml",
   "https://githubengineering.com/atom.com",
   "https://joshwcomeau.com/rss.xml",
   "https://jvns.ca/atom.xml",
   "https://overreacted.io/rss.com",
   "https://signal.org/blog/rss.com",
   "https://slack.engineering/feed",
   "https://stripe.com/blog/feed.rss"]

/-- The `defenseSources` table of `getCategoryForSource`. -/
def defenseSources : List String :=
  ["https://www.defenseone.com/rss/all/",
   "https://thediplomat.com/category/asia-defense/feed/",
   "https://www.janes.com/osint-insights/defence-news/feed/",
   "https://www.militarytimes.com/arc/outboundfeeds/news-rss/",
   "https://www.defensenews.com/arc/outboundfeeds/home-rss/"]

/-- Embedding of `getCategoryForSource`: membership lookup in the three
static tables, `"General"` if none matches. -/
def getCategoryForSource (sourceURL : String) : String :=
  if cybersecuritySources.contains sourceURL then "Cybersecurity"
  else if techSources.contains sourceURL then "Tech"
  else if defenseSources.contains sourceURL then "Defense"
  else "General"

/-- Embedding of `InsertArticle` / `INSERT OR IGNORE` with `UNIQUE(url)`
(declared in `InitDB`): the row is appended unless an article with the same
URL is already stored, in which case the statement is a silent no-op. -/
def InsertArticle (store : List NewsArticle) (article : NewsArticle) : List NewsArticle :=
  if store.any (fun b => b.URL == article.URL) then store else store ++ [article]

/-- The `ThreatScore` record of the db package. -/
structure ThreatScore where
  lowRankCount : Nat
  mediumRankCount : Nat
  highRankCount : Nat
  totalArticles : Nat
  threatLevel : String
  deriving Repr, DecidableEq

/-- One iteration of the scanning loop of `GetTodayThreatScore`:
`totalArticles++` and one bucket increment (`rank < 2` low, `rank < 5`
medium, otherwise high). Accumulator is (low, medium, high, total). -/
def tallyStep (acc : Nat × Nat × Nat × Nat) (rank : Int) : Nat × Nat × Nat × Nat :=
  let (low, med, high, total) := acc
  if rank < 2 then (low + 1, med, high, total + 1)
  else if rank < 5 then (low, med + 1, high, total + 1)
  else (low, med, high + 1, total + 1)

/-- The scanning loop of `GetTodayThreatScore`: one pass over the rank
column, returning (low, medium, high, total). -/
def tallyRanks (ranks : List Int) : Nat × Nat × Nat × Nat :=
  ranks.foldl tallyStep (0, 0, 0, 0)

/-- Embedding of `GetTodayThreatScore`: scan the ranks of articles with
`publishedAt >= now - 24h`, bucket them, and derive the level. -/
def GetTodayThreatScore (now : Int) (store : List NewsArticle) : ThreatScore :=
  let twentyFourHoursAgo := now - 24 * 3600
  let ranks := (store.filter (fun a => twentyFourHoursAgo ≤ a.PublishedAt)).map (·.Rank)
  let counts := tallyRanks ranks
  let threatLevel :=
    if counts.2.2.2 = 0 then "No Threats Reported"
    else if 0 < counts.2.2.1 then "Code Red"
    else if 0 < counts.2.1 then "Attention"
    else "Business as Usual"
  { lowRankCount := counts.1, mediumRankCount := counts.2.1, highRankCount := counts.2.2.1,
    totalArticles := counts.2.2.2, threatLevel := threatLevel }

/-- The WHERE clause assembled by `GetArticlesFromDB`: source and category
equality filters (skipped for `""`/`"all"`), the case-insensitive substring
search on title or description, and inclusive published-timestamp bounds
(absent filters are `none`, Go's zero `time.Time`). -/
def matchesQuery (sourceFilter categoryFilter searchFilter : String)
    (startDate endDate : Option Int) (a : NewsArticle) : Bool :=
  (if sourceFilter ≠ "" ∧ sourceFilter ≠ "all" then a.SourceURL == sourceFilter else true) &&
  (if categoryFilter ≠ "" ∧ categoryFilter ≠ "all" then a.Category == categoryFilter else true) &&
  (if searchFilter ≠ "" then
     strContains (strToLower a.Title) (strToLower searchFilter) ||
     strContains (strToLower a.Description) (strToLower searchFilter)
   else true) &&
  (match startDate with
   | some t => decide (t ≤ a.PublishedAt)
   | none => true) &&
  (match endDate with
   | some t => decide (a.PublishedAt ≤ t)
   | none => true)

/-- Descending insertion by key: embedding of `ORDER BY key DESC`. -/
def insertDesc (key : NewsArticle → Int) (a : NewsArticle) : List NewsArticle → List NewsArticle
  | [] => [a]
  | b :: bs => if key b ≤ key a then a :: b :: bs else b :: insertDesc key a bs

/-- Sort a list in descending key order (insertion sort). -/
def sortDesc (key : NewsArticle → Int) : List NewsArticle → List NewsArticle
  | [] => []
  | a :: as => insertDesc key a (sortDesc key as)

/-- Embedding of `GetArticlesFromDB`: filter by the WHERE clause, order by
rank descending when `sortBy = "rank"` and by published timestamp descending
otherwise, then apply `LIMIT` when positive. -/
def GetArticlesFromDB (store : List NewsArticle) (sourceFilter categoryFilter searchFilter : String)
    (limit : Int) (startDate endDate : Option Int) (sortBy : String) : List NewsArticle :=
  let filtered := store.filter
    (matchesQuery sourceFilter categoryFilter searchFilter startDate endDate)
  let sorted :=
    if sortBy = "rank" then sortDesc (·.Rank) filtered
    else sortDesc (·.PublishedAt) filtered
  if 0 < limit then sorted.take limit.toNat else sorted

/-- A parsed feed item, as consumed by `fetchAndCacheNews` (gofeed's
`Item`): optional image, optional parsed publication timestamp. -/
structure FeedItem where
  Title : String
  Description : String
  Link : String
  ImageURLOfItem : Option String
  PublishedParsed : Option Int
  deriving Repr, DecidableEq

/-- Embedding of the article construction of `fetchAndCacheNews` (one feed
item of one source): sanitize the description, classify by source, compute
the rank, then fill the image URL (item's image, else empty) and the
published timestamp (item's, else the feed's, else now). The sanitizer
(`bluemonday.StripTagsPolicy`) is a parameter. -/
def buildArticle (sanitize : String → String) (now : Int) (source : String)
    (feedPublishedParsed : Option Int) (item : FeedItem) : NewsArticle :=
  let category := getCategoryForSource source
  let base : NewsArticle :=
    { Title := item.Title, Description := sanitize item.Description, ImageURL := "",
      URL := item.Link, SourceURL := source, PublishedAt := 0, Rank := 0, Category := category }
  let ranked := { base with Rank := calculateRank base }
  let withImage :=
    match item.ImageURLOfItem with
    | some u => { ranked with ImageURL := u }
    | none => ranked
  match item.PublishedParsed with
  | some t => { withImage with PublishedAt := t }
  | none =>
    match feedPublishedParsed with
    | some t => { withImage with PublishedAt := t }
    | none => { withImage with PublishedAt := now }

/-- One data row of `LoadArticlesFromCSV`: skip the row unless it has 8
columns, a parseable timestamp and a parseable rank; otherwise insert-if-
absent. `parseTime` and `parseRank` stand for `time.Parse(time.RFC3339, ·)`
and `strconv.Atoi`. -/
def csvProcessRow (parseTime parseRank : String → Option Int)
    (st : List NewsArticle) (record : List String) : List NewsArticle :=
  if record.length ≠ 8 then st
  else
    match parseTime (record.getD 5 "") with
    | none => st
    | some publishedAt =>
      match parseRank (record.getD 6 "") with
      | none => st
      | some rank =>
        InsertArticle st
          { Title := record.getD 0 "", Description := record.getD 1 "",
            ImageURL := record.getD 2 "", URL := record.getD 3 "",
            SourceURL := record.getD 4 "", PublishedAt := publishedAt,
            Rank := rank, Category := record.getD 7 "" }

/-- Embedding of `LoadArticlesFromCSV`: reject the whole file when the
header does not have 8 columns (first component `some` error, store
untouched); otherwise process every data row with `csvProcessRow` and
report success. -/
def LoadArticlesFromCSV (parseTime parseRank : String → Option Int)
    (header : List String) (rows : List (List String)) (store : List NewsArticle) :
    Option String × List NewsArticle :=
  if header.length ≠ 8 then
    (some ("invalid CSV header: expected 8 columns, got " ++ toString header.length), store)
  else
    (none, rows.foldl (csvProcessRow parseTime parseRank) store)

/-- A data row that `LoadArticlesFromCSV` does not skip. -/
def validCSVRecord (parseTime parseRank : String → Option Int) (record : List String) : Bool :=
  record.length == 8 && (parseTime (record.getD 5 "")).isSome
    && (parseRank (record.getD 6 "")).isSome

/-- State of one run of `fetchAndCacheNews`: the items each still-running
fetch worker has left to submit, the contents of the buffered channel
`articleChan` (capacity 100), whether the channel has been closed, the
articles the single writer goroutine has inserted, and whether completion
has been reported (the log statement after `close(articleChan)`). -/
structure PipeState where
  pending : List (List NewsArticle)
  queue : List NewsArticle
  chanClosed : Bool
  inserted : List NewsArticle
  reported : Bool
  deriving Repr, DecidableEq

/-- Interleaving semantics of one run of `fetchAndCacheNews`:
`send` is a worker submitting an article to the channel (blocking when the
buffer of 100 is full); `finish` is `wg.Done` of a worker with nothing left;
`closeChan` is `wg.Wait(); close(articleChan)` of the main goroutine, enabled
only once every worker has finished; `report` is the completion log that
follows the close; `write` is the writer goroutine draining one article from
the channel into the store via `InsertArticle`. -/
inductive PipeStep : PipeState → PipeState → Prop
  | send (s : PipeState) (i : Nat) (a : NewsArticle) (rest : List NewsArticle)
      (hi : s.pending[i]? = some (a :: rest)) (hq : s.queue.length < 100) :
      PipeStep s { s with pending := s.pending.set i rest, queue := s.queue ++ [a] }
  | finish (s : PipeState) (i : Nat) (hi : s.pending[i]? = some []) :
      PipeStep s { s with pending := s.pending.eraseIdx i }
  | closeChan (s : PipeState) (hw : s.pending = []) (hc : s.chanClosed = false) :
      PipeStep s { s with chanClosed := true }
  | report (s : PipeState) (hc : s.chanClosed = true) (hr : s.reported = false) :
      PipeStep s { s with reported := true }
  | write (s : PipeState) (a : NewsArticle) (q : List NewsArticle) (hq : s.queue = a :: q) :
      PipeStep s { s with queue := q, inserted := s.inserted ++ [a] }

/-- Start of a run: each worker holds its accepted items, channel empty and
open, nothing inserted, completion not reported. -/
def initPipeState (items : List (List NewsArticle)) : PipeState :=
  { pending := items, queue := [], chanClosed := false, inserted := [], reported := false }

/-- Reachability along run interleavings. -/
def PipeReachable (s t : PipeState) : Prop :=
  Relation.ReflTransGen PipeStep s t


/-- Parses the digits of a decimal number, failing on empty or non-digit
input (helper of `atoiModel`). -/
def digitsToNatAux : List Char → Nat → Option Nat
  | [], acc => some acc
  | c :: cs, acc =>
    if c.isDigit then digitsToNatAux cs (acc * 10 + (c.toNat - 48)) else none

/-- All-digit parse of a nonempty character list. -/
def digitsToNat (ds : List Char) : Option Nat :=
  if ds.isEmpty then none else digitsToNatAux ds 0

/-- Embedding of `strconv.Atoi`: an optionally signed decimal integer. -/
def atoiModel (s : String) : Option Int :=
  match s.toList with
  | '+' :: ds => (digitsToNat ds).map (fun n => (n : Int))
  | '-' :: ds => (digitsToNat ds).map (fun n => -(n : Int))
  | ds => (digitsToNat ds).map (fun n => (n : Int))

/-- Oracle for `time.Parse(time.RFC3339, ·)` restricted to the one concrete
timestamp appearing in witnesses: the RFC3339 text maps to its Unix
seconds, everything else fails to parse. -/
def rfc3339Oracle (s : String) : Option Int :=
  if s = "2026-10-10T00:00:00Z" then some 1760054400 else none

/-- The expected CSV header of `LoadArticlesFromCSV`. -/
def csvHeader : List String :=
  ["Title", "Description", "ImageURL", "URL", "SourceURL", "PublishedAt", "Rank", "Category"]

/-- A well-formed CSV data row whose rank column (-1) is not the Scorer
output (0) for its category and text. -/
def corruptCSVRow : List String :=
  ["hello", "world", "", "http://example.com/a", "src", "2026-10-10T00:00:00Z", "-1", "General"]

/-- The article `LoadArticlesFromCSV` stores for `corruptCSVRow`. -/
def corruptArticle : NewsArticle :=
  { Title := "hello", Description := "world", ImageURL := "",
    URL := "http://example.com/a", SourceURL := "src",
    PublishedAt := 1760054400, Rank := -1, Category := "General" }

/-- A CSV data row with an unparseable rank column, skipped by import. -/
def badRankCSVRow : List String :=
  ["skipme", "x", "", "http://example.com/b", "src", "2026-10-10T00:00:00Z", "seven", "General"]

/-- The single article of the concrete pipeline run used in the C2 trace. -/
def pipeArticle : NewsArticle :=
  { Title := "t", Description := "d", ImageURL := "", URL := "http://example.com/1",
    SourceURL := "s", PublishedAt := 0, Rank := 0, Category := "General" }

/-- Run state after the only worker has submitted its article. -/
def pipeS1 : PipeState :=
  { pending := [[]], queue := [pipeArticle], chanClosed := false, inserted := [],
    reported := false }

/-- Run state after that worker has finished (`wg.Done`). -/
def pipeS2 : PipeState :=
  { pending := [], queue := [pipeArticle], chanClosed := false, inserted := [],
    reported := false }

/-- Run state after `wg.Wait(); close(articleChan)`. -/
def pipeS3 : PipeState :=
  { pending := [], queue := [pipeArticle], chanClosed := true, inserted := [],
    reported := false }

/-- Run state at the completion log: reported, yet the submitted article is
still queued and not inserted. -/
def pipeBadState : PipeState :=
  { pending := [], queue := [pipeArticle], chanClosed := true, inserted := [],
    reported := true }

/-- Two-article store used by the query witness. -/
def demoStore : List NewsArticle :=
  [{ Title := "Attack hits vendor", Description := "a breach", ImageURL := "",
     URL := "http://example.com/q1", SourceURL := "https://www.csoonline.com/feed/",
     PublishedAt := 50, Rank := 6, Category := "Cybersecurity" },
   { Title := "quiet day", Description := "an attack recap", ImageURL := "",
     URL := "http://example.com/q2", SourceURL := "https://www.csoonline.com/feed/",
     PublishedAt := 80, Rank := 3, Category := "Cybersecurity" }]

/-- Stored article used by the duplicate-insert witness. -/
def storedB : NewsArticle :=
  { Title := "original title", Description := "original description",
    ImageURL := "http://img/1", URL := "http://example.com/x",
    SourceURL := "https://techcrunch.com/feed/", PublishedAt := 5, Rank := 1,
    Category := "Tech" }

/-- Duplicate article used by the duplicate-insert witness: same URL as
`storedB`, every other field different. -/
def duplicateA : NewsArticle :=
  { Title := "replacement title", Description := "other description",
    ImageURL := "http://img/2", URL := "http://example.com/x",
    SourceURL := "https://jvns.ca/atom.xml", PublishedAt := 9, Rank := 2,
    Category := "General" }

/-- C4: the two worked scoring examples. Concatenating title and
description, lowercasing, and summing the category table's weight for each
keyword occurring as a substring gives 24 for the Cybersecurity example and
5 for the Tech example. -/
theorem calculateRank_worked_examples :
    calculateRank { Title := "Critical zero-day exploit found",
                    Description := "Active attack with ransomware attack confirmed.",
                    ImageURL := "", URL := "", SourceURL := "", PublishedAt := 0, Rank := 0,
                    Category := "Cybersecurity" } = 24 ∧
    calculateRank { Title := "Review of the new gadget",
                    Description := "Here are some tips for this software update.",
                    ImageURL := "", URL := "", SourceURL := "", PublishedAt := 0, Rank := 0,
                    Category := "Tech" } = 5 := by
  decide

/-- C7: the configured source `https://overreacted.io/rss.xml` is classified
`"General"` rather than `"Tech"`, because the classifier's tech table lists
the `.com` spelling instead; items of that category are scored with the
generic keyword table. -/
theorem misspelled_tech_source_classified_general :
    "https://overreacted.io/rss.xml" ∈ RssSources ∧
    getCategoryForSource "https://overreacted.io/rss.xml" = "General" ∧
    "https://overreacted.io/rss.com" ∈ techSources ∧
    "https://overreacted.io/rss.xml" ∉ techSources ∧
    keywordsForCategory (getCategoryForSource "https://overreacted.io/rss.xml")
      = generalKeywords := by
  decide

/-- C3: inserting an article whose URL is already present is a silent
no-op: the store is returned unchanged (hence its count is unchanged and
the originally stored article is retained with every field intact). -/
theorem InsertArticle_duplicate_noop (store : List NewsArticle) (A B : NewsArticle)
    (hB : B ∈ store) (hurl : B.URL = A.URL) :
    InsertArticle store A = store ∧
    (InsertArticle store A).length = store.length ∧
    B ∈ InsertArticle store A := by
  have hany : store.any (fun b => b.URL == A.URL) = true :=
    List.any_eq_true.mpr ⟨B, hB, by simp [hurl]⟩
  refine ⟨?_, ?_, ?_⟩ <;> simp [InsertArticle, hany, hB]

/-- Witness for C3 at a concrete store. -/
theorem InsertArticle_duplicate_noop_witness :
    InsertArticle [storedB] duplicateA = [storedB] ∧
    (InsertArticle [storedB] duplicateA).length = [storedB].length ∧
    storedB ∈ InsertArticle [storedB] duplicateA :=
  InsertArticle_duplicate_noop [storedB] duplicateA storedB (by decide) (by decide)

/-- C10: the built article's published timestamp is the item's own parsed
timestamp if present, else the feed-level parsed timestamp if present, else
the current time; its image URL is the item's image URL if the item has an
image, else empty. -/
theorem buildArticle_published_and_image (sanitize : String → String) (now : Int)
    (source : String) (feedPub : Option Int) (item : FeedItem) :
    (buildArticle sanitize now source feedPub item).PublishedAt
        = item.PublishedParsed.getD (feedPub.getD now) ∧
    (buildArticle sanitize now source feedPub item).ImageURL
        = item.ImageURLOfItem.getD "" := by
  cases hi : item.ImageURLOfItem <;> cases hp : item.PublishedParsed <;> cases hf : feedPub <;>
    simp [buildArticle, hi, hp, hf]

/-- The scanning loop counts, with an arbitrary starting accumulator: low,
medium and high buckets are the counts of ranks `< 2`, `2 ≤ · < 5` and
`≥ 5`, and the total is the number of scanned rows. -/
theorem tallyRanks_fold (ranks : List Int) (low med high total : Nat) :
    ranks.foldl tallyStep (low, med, high, total) =
      (low + ranks.countP (fun r => decide (r < 2)),
       med + ranks.countP (fun r => decide (2 ≤ r) && decide (r < 5)),
       high + ranks.countP (fun r => decide (5 ≤ r)),
       total + ranks.length) := by
  induction ranks generalizing low med high total with
  | nil => simp
  | cons r rs ih =>
    simp only [List.foldl_cons, List.countP_cons, List.length_cons, tallyStep]
    by_cases h1 : r < 2
    · have e1 : decide (r < 2) = true := by simp [h1]
      have e2 : (decide (2 ≤ r) && decide (r < 5)) = false := by
        simp only [Bool.and_eq_false_iff, decide_eq_false_iff_not]
        omega
      have e3 : decide (5 ≤ r) = false := by simp only [decide_eq_false_iff_not]; omega
      simp [if_pos h1, ih, e1, e2, e3, Prod.mk.injEq]
      omega
    · by_cases h5 : r < 5
      · have e1 : decide (r < 2) = false := by simp only [decide_eq_false_iff_not]; omega
        have e2 : (decide (2 ≤ r) && decide (r < 5)) = true := by
          simp only [Bool.and_eq_true, decide_eq_true_eq]
          omega
        have e3 : decide (5 ≤ r) = false := by simp only [decide_eq_false_iff_not]; omega
        simp [if_neg h1, if_pos h5, ih, e1, e2, e3, Prod.mk.injEq]
        omega
      · have e1 : decide (r < 2) = false := by simp only [decide_eq_false_iff_not]; omega
        have e2 : (decide (2 ≤ r) && decide (r < 5)) = false := by
          simp only [Bool.and_eq_false_iff, decide_eq_false_iff_not]
          omega
        have e3 : decide (5 ≤ r) = true := by simp only [decide_eq_true_eq]; omega
        simp [if_neg h1, if_neg h5, ih, e1, e2, e3, Prod.mk.injEq]
        omega

/-- C1: `GetTodayThreatScore` counts exactly the stored articles whose
published timestamp is at or after now minus 24 hours; each counted article
is bucketed by rank (`< 2` low, `2 ≤ · < 5` medium, `≥ 5` high); and the
level follows the precedence order: no articles in the window gives
"No Threats Reported", else any high gives "Code Red", else any medium
gives "Attention", else "Business as Usual". -/
theorem GetTodayThreatScore_spec (now : Int) (store : List NewsArticle) :
    (GetTodayThreatScore now store).totalArticles
        = store.countP (fun a => decide (now - 24 * 3600 ≤ a.PublishedAt)) ∧
    (GetTodayThreatScore now store).lowRankCount
        = store.countP (fun a => decide (a.Rank < 2) && decide (now - 24 * 3600 ≤ a.PublishedAt)) ∧
    (GetTodayThreatScore now store).mediumRankCount
        = store.countP (fun a =>
            (decide (2 ≤ a.Rank) && decide (a.Rank < 5))
              && decide (now - 24 * 3600 ≤ a.PublishedAt)) ∧
    (GetTodayThreatScore now store).highRankCount
        = store.countP (fun a => decide (5 ≤ a.Rank) && decide (now - 24 * 3600 ≤ a.PublishedAt)) ∧
    (GetTodayThreatScore now store).threatLevel =
      (if (GetTodayThreatScore now store).totalArticles = 0 then "No Threats Reported"
       else if 0 < (GetTodayThreatScore now store).highRankCount then "Code Red"
       else if 0 < (GetTodayThreatScore now store).mediumRankCount then "Attention"
       else "Business as Usual") := by
  simp only [GetTodayThreatScore, tallyRanks, tallyRanks_fold, Nat.zero_add,
    List.countP_map, List.countP_filter, Function.comp]
  refine ⟨?_, by trivial, by trivial, by trivial, by trivial⟩
  rw [List.length_map, List.countP_eq_length_filter]


/-- Every keyword weight of every category table is non-negative. -/
theorem keywordsForCategory_nonneg (c : String) :
    ∀ kw ∈ keywordsForCategory c, 0 ≤ kw.2 := by
  unfold keywordsForCategory
  split
  · decide
  · split
    · decide
    · decide

/-- The scoring fold is monotone: with non-negative weights, if every
keyword matched under `p` is also matched under `q` and the initial
accumulator does not decrease, the summed score does not decrease. -/
theorem foldl_rank_mono (p q : String × Int → Bool) (l : List (String × Int))
    (hw : ∀ kw ∈ l, 0 ≤ kw.2) (hpq : ∀ kw ∈ l, p kw = true → q kw = true)
    (r1 r2 : Int) (hr : r1 ≤ r2) :
    l.foldl (fun r kw => if p kw then r + kw.2 else r) r1 ≤
      l.foldl (fun r kw => if q kw then r + kw.2 else r) r2 := by
  induction l generalizing r1 r2 with
  | nil => simpa using hr
  | cons kw rest ih =>
    simp only [List.foldl_cons]
    have hw0 : 0 ≤ kw.2 := hw kw (by simp)
    have hwr : ∀ k ∈ rest, 0 ≤ k.2 := fun k hk => hw k (by simp [hk])
    have hpqr : ∀ k ∈ rest, p k = true → q k = true := fun k hk => hpq k (by simp [hk])
    refine ih hwr hpqr _ _ ?_
    by_cases hp : p kw = true
    · have hq := hpq kw (by simp) hp
      simp only [hp, hq, if_true]
      omega
    · by_cases hq : q kw = true
      · simp only [hp, hq, if_true, if_false, Bool.false_eq_true]
        omega
      · simp only [hp, hq, Bool.false_eq_true, if_false]
        exact hr

/-- With non-negative weights the scoring fold never goes below its
initial accumulator. -/
theorem foldl_rank_init_le (p : String × Int → Bool) (l : List (String × Int))
    (hw : ∀ kw ∈ l, 0 ≤ kw.2) (r : Int) :
    r ≤ l.foldl (fun acc kw => if p kw then acc + kw.2 else acc) r := by
  induction l generalizing r with
  | nil => simp
  | cons kw rest ih =>
    simp only [List.foldl_cons]
    have h0 : 0 ≤ kw.2 := hw kw (by simp)
    have hwr : ∀ k ∈ rest, 0 ≤ k.2 := fun k hk => hw k (by simp [hk])
    refine le_trans ?_ (ih hwr _)
    by_cases hp : p kw = true
    · simp only [hp, if_true]
      omega
    · simp [hp]

/-- The Scorer never returns a negative rank. -/
theorem calculateRank_nonneg (a : NewsArticle) : 0 ≤ calculateRank a := by
  unfold calculateRank
  exact foldl_rank_init_le _ _ (keywordsForCategory_nonneg a.Category) 0

/-- C8: the Scorer is deterministic (equal inputs give equal results), and
monotone in the set of matched keywords: for two articles of the same
category, if every table keyword matching the first article's lowercased
text also matches the second's, the second scores at least as high. -/
theorem calculateRank_deterministic_and_monotone :
    (∀ a : NewsArticle, calculateRank a = calculateRank a) ∧
    (∀ a b : NewsArticle, a.Category = b.Category →
      (∀ kw ∈ keywordsForCategory a.Category,
        strContains (strToLower (a.Title ++ " " ++ a.Description)) kw.1 = true →
        strContains (strToLower (b.Title ++ " " ++ b.Description)) kw.1 = true) →
      calculateRank a ≤ calculateRank b) := by
  refine ⟨fun a => rfl, fun a b hcat hmono => ?_⟩
  unfold calculateRank
  rw [← hcat]
  exact foldl_rank_mono _ _ _ (keywordsForCategory_nonneg a.Category) hmono 0 0 le_rfl

/-- Witness for C8: adding the word "update" to a General-category article
raises its score. -/
theorem calculateRank_monotone_witness :
    calculateRank { Title := "news", Description := "", ImageURL := "", URL := "",
                    SourceURL := "", PublishedAt := 0, Rank := 0, Category := "General" } ≤
      calculateRank { Title := "news update", Description := "", ImageURL := "", URL := "",
                      SourceURL := "", PublishedAt := 0, Rank := 0, Category := "General" } :=
  calculateRank_deterministic_and_monotone.2
    { Title := "news", Description := "", ImageURL := "", URL := "",
      SourceURL := "", PublishedAt := 0, Rank := 0, Category := "General" }
    { Title := "news update", Description := "", ImageURL := "", URL := "",
      SourceURL := "", PublishedAt := 0, Rank := 0, Category := "General" }
    rfl (by decide)

/-- Run invariant of `fetchAndCacheNews`: the channel is closed only after
every worker has finished (`wg.Wait` precedes `close`), and completion is
reported only after the close. -/
def pipeInv (s : PipeState) : Prop :=
  (s.chanClosed = true → s.pending = []) ∧ (s.reported = true → s.chanClosed = true)

/-- Every step of a run preserves `pipeInv`. -/
theorem pipeInv_step {s t : PipeState} (h : PipeStep s t) (hs : pipeInv s) : pipeInv t := by
  obtain ⟨h1, h2⟩ := hs
  cases h with
  | send i a rest hi hq =>
    refine ⟨fun hc => ?_, fun hr => h2 hr⟩
    have hp := h1 hc
    rw [hp] at hi
    simp at hi
  | finish i hi =>
    refine ⟨fun hc => ?_, fun hr => h2 hr⟩
    have hp := h1 hc
    simp [hp]
  | closeChan hw hc =>
    exact ⟨fun _ => hw, fun _ => rfl⟩
  | report hc hr =>
    exact ⟨fun h => h1 h, fun _ => hc⟩
  | write a q hq =>
    exact ⟨h1, h2⟩

/-- `pipeInv` holds in every state reachable from a run start. -/
theorem pipeInv_reachable {s t : PipeState} (h : PipeReachable s t) (hs : pipeInv s) :
    pipeInv t := by
  induction h with
  | refl => exact hs
  | tail _ hstep ih => exact pipeInv_step hstep ih

/-- C2 (amended): in every reachable state of a run, once completion has
been reported all fetch workers have finished and the channel is closed —
but the queue need not be empty (see the counterexample theorem). -/
theorem pipeline_reported_implies_workers_done (items : List (List NewsArticle))
    (s : PipeState) (h : PipeReachable (initPipeState items) s)
    (hrep : s.reported = true) :
    s.pending = [] ∧ s.chanClosed = true := by
  have hinv : pipeInv s := by
    refine pipeInv_reachable h ⟨fun h0 => ?_, fun h0 => ?_⟩ <;>
      simp [initPipeState] at h0
  exact ⟨hinv.1 (hinv.2 hrep), hinv.2 hrep⟩

/-- A complete interleaving of a one-worker, one-article run that reaches
the completion report with the article still queued. -/
theorem pipeRun_example_trace : PipeReachable (initPipeState [[pipeArticle]]) pipeBadState := by
  have h1 : PipeStep (initPipeState [[pipeArticle]]) pipeS1 :=
    PipeStep.send (initPipeState [[pipeArticle]]) 0 pipeArticle [] rfl (by decide)
  have h2 : PipeStep pipeS1 pipeS2 := PipeStep.finish pipeS1 0 rfl
  have h3 : PipeStep pipeS2 pipeS3 := PipeStep.closeChan pipeS2 rfl rfl
  have h4 : PipeStep pipeS3 pipeBadState := PipeStep.report pipeS3 rfl rfl
  exact .head h1 (.head h2 (.head h3 (.head h4 .refl)))

/-- Counterexample to C2 as stated: the run reports completion (the log
after `close(articleChan)`) in a reachable state where the submitted
article is still queued and not yet inserted by the writer. -/
theorem pipeline_reports_completion_with_queued_items :
    PipeReachable (initPipeState [[pipeArticle]]) pipeBadState ∧
    pipeBadState.reported = true ∧
    pipeBadState.queue ≠ [] ∧
    pipeBadState.inserted = [] :=
  ⟨pipeRun_example_trace, rfl, by decide, rfl⟩

/-- Witness for the amended C2 theorem on the concrete run trace. -/
theorem pipeline_reported_implies_workers_done_witness :
    pipeBadState.pending = [] ∧ pipeBadState.chanClosed = true :=
  pipeline_reported_implies_workers_done [[pipeArticle]] pipeBadState
    pipeRun_example_trace rfl

/-- A data row failing validation (column count, timestamp parse, or rank
parse) is skipped: the store is unchanged. -/
theorem csvProcessRow_invalid (parseTime parseRank : String → Option Int)
    (store : List NewsArticle) (record : List String)
    (h : validCSVRecord parseTime parseRank record = false) :
    csvProcessRow parseTime parseRank store record = store := by
  unfold validCSVRecord at h
  unfold csvProcessRow
  by_cases h8 : record.length = 8
  · rw [if_neg (by omega)]
    cases hpt : parseTime (record.getD 5 "") with
    | none => rfl
    | some t =>
      cases hpr : parseRank (record.getD 6 "") with
      | none => rfl
      | some rk =>
        exfalso
        rw [hpt, hpr] at h
        simp [h8] at h
  · rw [if_pos h8]

/-- Skipping invalid rows is the same as deleting them from the input:
the fold over all rows equals the fold over the valid rows only. -/
theorem csvFold_filter (parseTime parseRank : String → Option Int)
    (rows : List (List String)) (store : List NewsArticle) :
    rows.foldl (csvProcessRow parseTime parseRank) store
      = (rows.filter (validCSVRecord parseTime parseRank)).foldl
          (csvProcessRow parseTime parseRank) store := by
  induction rows generalizing store with
  | nil => rfl
  | cons r rs ih =>
    by_cases hv : validCSVRecord parseTime parseRank r = true
    · simp only [List.filter_cons, hv, if_true, List.foldl_cons]
      exact ih _
    · have hv0 : validCSVRecord parseTime parseRank r = false := by
        simpa using hv
      simp only [List.filter_cons, hv0, Bool.false_eq_true, if_false, List.foldl_cons,
        csvProcessRow_invalid parseTime parseRank store r hv0]
      exact ih _

/-- C5: import rejects the whole file, inserting nothing, when the header
column count differs from 8; with a well-formed header it succeeds, and
rows with a wrong column count, unparseable timestamp, or unparseable rank
are skipped individually while every other valid row is still inserted
(the run over all rows equals the run over just the valid rows). -/
theorem LoadArticlesFromCSV_spec (parseTime parseRank : String → Option Int)
    (header : List String) (rows : List (List String)) (store : List NewsArticle) :
    (header.length ≠ 8 →
      LoadArticlesFromCSV parseTime parseRank header rows store
        = (some ("invalid CSV header: expected 8 columns, got " ++ toString header.length),
           store)) ∧
    (header.length = 8 →
      LoadArticlesFromCSV parseTime parseRank header rows store
        = (none, (rows.filter (validCSVRecord parseTime parseRank)).foldl
            (csvProcessRow parseTime parseRank) store)) := by
  constructor
  · intro h8
    unfold LoadArticlesFromCSV
    rw [if_pos h8]
  · intro h8
    unfold LoadArticlesFromCSV
    rw [if_neg (by omega), csvFold_filter]

/-- Witness for C5: a one-column header is rejected with the store intact,
and with the real header a malformed-rank row is skipped while the valid
row before and after it are inserted. -/
theorem LoadArticlesFromCSV_spec_witness :
    (LoadArticlesFromCSV rfc3339Oracle atoiModel ["Title"] [corruptCSVRow] []
        = (some ("invalid CSV header: expected 8 columns, got " ++ toString (["Title"] : List String).length), [])) ∧
    (LoadArticlesFromCSV rfc3339Oracle atoiModel csvHeader [corruptCSVRow, badRankCSVRow] []
        = (none, ([corruptCSVRow, badRankCSVRow].filter (validCSVRecord rfc3339Oracle atoiModel)).foldl
            (csvProcessRow rfc3339Oracle atoiModel) [])) :=
  ⟨(LoadArticlesFromCSV_spec rfc3339Oracle atoiModel ["Title"] [corruptCSVRow] []).1 (by decide),
   (LoadArticlesFromCSV_spec rfc3339Oracle atoiModel csvHeader [corruptCSVRow, badRankCSVRow] []).2 (by decide)⟩

/-- Counterexample to C6 as stated: restoring a well-formed CSV row whose
rank column is -1 stores an article whose rank is not the Scorer output
for its stored category, title and description (which is 0), and is
negative. -/
theorem csv_restore_breaks_rank_invariant :
    (LoadArticlesFromCSV rfc3339Oracle atoiModel csvHeader [corruptCSVRow] []).2
        = [corruptArticle] ∧
    corruptArticle.Rank ≠ calculateRank corruptArticle ∧
    corruptArticle.Rank < 0 := by
  refine ⟨by decide, by decide, by decide⟩

/-- C6 (amended): every article built by the ingestion pipeline carries the
Scorer's output for its stored category, title, and description as its
rank, and that output is non-negative. (Articles inserted by CSV restore
instead carry the rank column of the file verbatim.) -/
theorem pipeline_article_rank_is_scorer_output (sanitize : String → String) (now : Int)
    (source : String) (feedPub : Option Int) (item : FeedItem) :
    (buildArticle sanitize now source feedPub item).Rank
        = calculateRank (buildArticle sanitize now source feedPub item) ∧
    0 ≤ (buildArticle sanitize now source feedPub item).Rank := by
  have hrank : (buildArticle sanitize now source feedPub item).Rank
      = calculateRank (buildArticle sanitize now source feedPub item) := by
    cases hi : item.ImageURLOfItem <;> cases hp : item.PublishedParsed <;> cases hf : feedPub <;>
      simp [buildArticle, hi, hp, hf, calculateRank]
  exact ⟨hrank, hrank ▸ calculateRank_nonneg _⟩

/-- Membership in a descending insertion. -/
theorem mem_insertDesc (key : NewsArticle → Int) (a b : NewsArticle) (l : List NewsArticle) :
    b ∈ insertDesc key a l ↔ b = a ∨ b ∈ l := by
  induction l with
  | nil => simp [insertDesc]
  | cons c cs ih =>
    unfold insertDesc
    by_cases h : key c ≤ key a
    · rw [if_pos h]
      simp
    · rw [if_neg h]
      simp only [List.mem_cons, ih]
      tauto

/-- Descending insertion preserves descending order. -/
theorem pairwise_insertDesc (key : NewsArticle → Int) (a : NewsArticle) (l : List NewsArticle)
    (h : l.Pairwise (fun x y => key y ≤ key x)) :
    (insertDesc key a l).Pairwise (fun x y => key y ≤ key x) := by
  induction l with
  | nil => simp [insertDesc]
  | cons c cs ih =>
    rcases List.pairwise_cons.mp h with ⟨hc, hcs⟩
    unfold insertDesc
    by_cases hk : key c ≤ key a
    · rw [if_pos hk]
      refine List.pairwise_cons.mpr ⟨?_, h⟩
      intro y hy
      rcases List.mem_cons.mp hy with rfl | hy2
      · exact hk
      · exact le_trans (hc y hy2) hk
    · rw [if_neg hk]
      refine List.pairwise_cons.mpr ⟨?_, ih hcs⟩
      intro y hy
      rcases (mem_insertDesc key a y cs).mp hy with rfl | hy2
      · exact le_of_not_le hk
      · exact hc y hy2

/-- `sortDesc` output is descending in the key. -/
theorem pairwise_sortDesc (key : NewsArticle → Int) (l : List NewsArticle) :
    (sortDesc key l).Pairwise (fun x y => key y ≤ key x) := by
  induction l with
  | nil => simp [sortDesc]
  | cons a as ih =>
    unfold sortDesc
    exact pairwise_insertDesc key a _ ih

/-- `sortDesc` neither adds nor removes elements. -/
theorem mem_sortDesc (key : NewsArticle → Int) (b : NewsArticle) (l : List NewsArticle) :
    b ∈ sortDesc key l ↔ b ∈ l := by
  induction l with
  | nil => simp [sortDesc]
  | cons a as ih =>
    unfold sortDesc
    rw [mem_insertDesc]
    simp [ih]

/-- Lowercasing yields the empty string only on the empty string. -/
theorem strToLower_eq_empty_iff (s : String) : strToLower s = "" ↔ s = "" := by
  cases s with
  | mk data =>
    unfold strToLower
    constructor
    · intro h
      have h2 := congrArg String.data h
      simp only [String.toList] at h2
      simp at h2
      simp [h2]
    · intro h
      have h2 : data = [] := by
        have := congrArg String.data h
        simpa using this
      simp [h2]

/-- What a true `matchesQuery` says about the article. -/
theorem matchesQuery_true_elim {sourceFilter categoryFilter searchFilter : String}
    {startDate endDate : Option Int} {a : NewsArticle}
    (h : matchesQuery sourceFilter categoryFilter searchFilter startDate endDate a = true) :
    (sourceFilter ≠ "" ∧ sourceFilter ≠ "all" → a.SourceURL = sourceFilter) ∧
    (categoryFilter ≠ "" ∧ categoryFilter ≠ "all" → a.Category = categoryFilter) ∧
    (searchFilter ≠ "" →
      strContains (strToLower a.Title) (strToLower searchFilter) = true ∨
      strContains (strToLower a.Description) (strToLower searchFilter) = true) ∧
    (∀ t, startDate = some t → t ≤ a.PublishedAt) ∧
    (∀ t, endDate = some t → a.PublishedAt ≤ t) := by
  unfold matchesQuery at h
  simp only [Bool.and_eq_true] at h
  obtain ⟨⟨⟨⟨hsrc, hcat⟩, hse⟩, hst⟩, hen⟩ := h
  refine ⟨?_, ?_, ?_, ?_, ?_⟩
  · intro hne
    rw [if_pos hne] at hsrc
    exact beq_iff_eq.mp hsrc
  · intro hne
    rw [if_pos hne] at hcat
    exact beq_iff_eq.mp hcat
  · intro hne
    rw [if_pos hne] at hse
    simpa using hse
  · intro t ht
    rw [ht] at hst
    simpa using hst
  · intro t ht
    rw [ht] at hen
    simpa using hen

/-- Sufficient conditions for `matchesQuery` to hold. -/
theorem matchesQuery_true_intro {sourceFilter categoryFilter searchFilter : String}
    {startDate endDate : Option Int} {a : NewsArticle}
    (hsrc : sourceFilter = "" ∨ sourceFilter = "all" ∨ a.SourceURL = sourceFilter)
    (hcat : categoryFilter = "" ∨ categoryFilter = "all" ∨ a.Category = categoryFilter)
    (hse : searchFilter = "" ∨
      strContains (strToLower a.Title) (strToLower searchFilter) = true ∨
      strContains (strToLower a.Description) (strToLower searchFilter) = true)
    (hst : ∀ t, startDate = some t → t ≤ a.PublishedAt)
    (hen : ∀ t, endDate = some t → a.PublishedAt ≤ t) :
    matchesQuery sourceFilter categoryFilter searchFilter startDate endDate a = true := by
  unfold matchesQuery
  simp only [Bool.and_eq_true]
  refine ⟨⟨⟨⟨?_, ?_⟩, ?_⟩, ?_⟩, ?_⟩
  · by_cases h : sourceFilter ≠ "" ∧ sourceFilter ≠ "all"
    · rw [if_pos h]
      rcases hsrc with h1 | h1 | h1
      · exact absurd h1 h.1
      · exact absurd h1 h.2
      · exact beq_iff_eq.mpr h1
    · rw [if_neg h]
  · by_cases h : categoryFilter ≠ "" ∧ categoryFilter ≠ "all"
    · rw [if_pos h]
      rcases hcat with h1 | h1 | h1
      · exact absurd h1 h.1
      · exact absurd h1 h.2
      · exact beq_iff_eq.mpr h1
    · rw [if_neg h]
  · by_cases h : searchFilter ≠ ""
    · rw [if_pos h]
      rcases hse with h1 | h1 | h1
      · exact absurd h1 h
      · simp [h1]
      · simp [h1]
    · rw [if_neg h]
  · cases startDate with
    | none => rfl
    | some t => simpa using hst t rfl
  · cases endDate with
    | none => rfl
    | some t => simpa using hen t rfl

/-- C9: query results are ordered by rank descending when `sortBy` is
"rank" and by published timestamp descending otherwise; every returned
article comes from the store, satisfies the case-insensitive title-or-
description search when one is given, and lies within the inclusive
timestamp bounds; with no LIMIT, every stored article passing the filters
(a search match in either field qualifies) is returned; and the search is
case-insensitive: any search text with the same lowercasing yields the
same result. -/
theorem GetArticlesFromDB_spec (store : List NewsArticle)
    (sourceFilter categoryFilter searchFilter : String) (limit : Int)
    (startDate endDate : Option Int) (sortBy : String) :
    (sortBy = "rank" →
      (GetArticlesFromDB store sourceFilter categoryFilter searchFilter limit
          startDate endDate sortBy).Pairwise (fun x y => y.Rank ≤ x.Rank)) ∧
    (sortBy ≠ "rank" →
      (GetArticlesFromDB store sourceFilter categoryFilter searchFilter limit
          startDate endDate sortBy).Pairwise (fun x y => y.PublishedAt ≤ x.PublishedAt)) ∧
    (∀ a ∈ GetArticlesFromDB store sourceFilter categoryFilter searchFilter limit
          startDate endDate sortBy,
      a ∈ store ∧
      (searchFilter ≠ "" →
        strContains (strToLower a.Title) (strToLower searchFilter) = true ∨
        strContains (strToLower a.Description) (strToLower searchFilter) = true) ∧
      (∀ t, startDate = some t → t ≤ a.PublishedAt) ∧
      (∀ t, endDate = some t → a.PublishedAt ≤ t)) ∧
    (limit ≤ 0 → ∀ a ∈ store,
      (sourceFilter = "" ∨ sourceFilter = "all" ∨ a.SourceURL = sourceFilter) →
      (categoryFilter = "" ∨ categoryFilter = "all" ∨ a.Category = categoryFilter) →
      (searchFilter = "" ∨
        strContains (strToLower a.Title) (strToLower searchFilter) = true ∨
        strContains (strToLower a.Description) (strToLower searchFilter) = true) →
      (∀ t, startDate = some t → t ≤ a.PublishedAt) →
      (∀ t, endDate = some t → a.PublishedAt ≤ t) →
      a ∈ GetArticlesFromDB store sourceFilter categoryFilter searchFilter limit
            startDate endDate sortBy) ∧
    (∀ search2 : String, strToLower search2 = strToLower searchFilter →
      GetArticlesFromDB store sourceFilter categoryFilter search2 limit
          startDate endDate sortBy
        = GetArticlesFromDB store sourceFilter categoryFilter searchFilter limit
            startDate endDate sortBy) := by
  refine ⟨?_, ?_, ?_, ?_, ?_⟩
  · intro hsort
    simp only [GetArticlesFromDB, if_pos hsort]
    split
    · exact (pairwise_sortDesc _ _).sublist (List.take_sublist _ _)
    · exact pairwise_sortDesc _ _
  · intro hsort
    simp only [GetArticlesFromDB, if_neg hsort]
    split
    · exact (pairwise_sortDesc _ _).sublist (List.take_sublist _ _)
    · exact pairwise_sortDesc _ _
  · intro a ha
    simp only [GetArticlesFromDB] at ha
    have h1 : a ∈ (if sortBy = "rank" then
        sortDesc (·.Rank) (store.filter
          (matchesQuery sourceFilter categoryFilter searchFilter startDate endDate))
      else
        sortDesc (·.PublishedAt) (store.filter
          (matchesQuery sourceFilter categoryFilter searchFilter startDate endDate))) := by
      split at ha
      · exact List.mem_of_mem_take ha
      · exact ha
    have h2 : a ∈ store.filter
        (matchesQuery sourceFilter categoryFilter searchFilter startDate endDate) := by
      split at h1
      · exact (mem_sortDesc _ _ _).mp h1
      · exact (mem_sortDesc _ _ _).mp h1
    rcases List.mem_filter.mp h2 with ⟨hstore, hmatch⟩
    have he := matchesQuery_true_elim hmatch
    exact ⟨hstore, he.2.2.1, he.2.2.2.1, he.2.2.2.2⟩
  · intro hlim a ha h1 h2 h3 h4 h5
    simp only [GetArticlesFromDB]
    rw [if_neg (by omega)]
    have hm := matchesQuery_true_intro h1 h2 h3 h4 h5
    have hmem : a ∈ store.filter
        (matchesQuery sourceFilter categoryFilter searchFilter startDate endDate) :=
      List.mem_filter.mpr ⟨ha, hm⟩
    split
    · exact (mem_sortDesc _ _ _).mpr hmem
    · exact (mem_sortDesc _ _ _).mpr hmem
  · intro search2 hs2
    have hemp : search2 = "" ↔ searchFilter = "" := by
      constructor
      · intro h
        refine (strToLower_eq_empty_iff searchFilter).mp ?_
        rw [← hs2, h]
        rfl
      · intro h
        refine (strToLower_eq_empty_iff search2).mp ?_
        rw [hs2, h]
        rfl
    have hfilters : store.filter
        (matchesQuery sourceFilter categoryFilter search2 startDate endDate)
        = store.filter
            (matchesQuery sourceFilter categoryFilter searchFilter startDate endDate) := by
      refine List.filter_congr ?_
      intro a _
      unfold matchesQuery
      have hclause : (if search2 ≠ "" then
          strContains (strToLower a.Title) (strToLower search2) ||
          strContains (strToLower a.Description) (strToLower search2)
        else true)
          = (if searchFilter ≠ "" then
          strContains (strToLower a.Title) (strToLower searchFilter) ||
          strContains (strToLower a.Description) (strToLower searchFilter)
        else true) := by
        by_cases h : searchFilter = ""
        · rw [if_neg (by simp [hemp.mpr h]), if_neg (by simp [h])]
        · have hne2 : search2 ≠ "" := fun hh => h (hemp.mp hh)
          rw [if_pos hne2, if_pos h, hs2]
      rw [hclause]
    simp only [GetArticlesFromDB, hfilters]

/-- Witness for C9: a rank-sorted query over the two-article demo store. -/
theorem GetArticlesFromDB_spec_witness :
    (GetArticlesFromDB demoStore "" "" "ATTACK" 0 (some 0) (some 100) "rank").Pairwise
      (fun x y => y.Rank ≤ x.Rank) :=
  (GetArticlesFromDB_spec demoStore "" "" "ATTACK" 0 (some 0) (some 100) "rank").1 rfl

end Threatfeed
